import Mathlib

/-!
Verification of `danger-plugin-coverage` (src/plugin.js): a Danger plugin
that reads a Clover XML coverage report, filters it to the files changed in
the PR, computes per-file and aggregate coverage percentages against
configurable thresholds, and renders a Markdown report.

The development shallowly embeds the JavaScript source: JS numbers are
modelled as rationals extended with NaN and signed infinities, XML-derived
metric objects as records of optional rationals (a missing key reads as
`undefined`, which `Number`-coerces to NaN), and the coverage tree as a
nested inductive.  Every definition mirrors the corresponding function of
`src/plugin.js`.
-/

namespace DangerCoverage

/-- A JavaScript number as it occurs in this plugin: a finite rational,
NaN (also the image of `undefined` and `'-'` under arithmetic coercion),
or a signed infinity (the result of dividing a nonzero number by zero). -/
inductive JsNum where
  | num (q : ℚ)
  | nan
  | inf
  | ninf
deriving DecidableEq

/-- JavaScript division, restricted to the values above.  NaN is absorbing;
division of a nonzero finite number by zero gives a signed infinity and
`0 / 0` gives NaN; a finite number divided by an infinity gives 0. -/
def jsDiv : JsNum → JsNum → JsNum
  | .nan, _ => .nan
  | _, .nan => .nan
  | .num a, .num b =>
    if b = 0 then
      (if a = 0 then .nan else if 0 < a then .inf else .ninf)
    else
      .num (a / b)
  | .num _, .inf => .num 0
  | .num _, .ninf => .num 0
  | .inf, .num b => if b < 0 then .ninf else .inf
  | .ninf, .num b => if b < 0 then .inf else .ninf
  | .inf, .inf => .nan
  | .inf, .ninf => .nan
  | .ninf, .inf => .nan
  | .ninf, .ninf => .nan

/-- JavaScript multiplication, restricted to the values above. -/
def jsMul : JsNum → JsNum → JsNum
  | .nan, _ => .nan
  | _, .nan => .nan
  | .num a, .num b => .num (a * b)
  | .inf, .num b => if b = 0 then .nan else if b < 0 then .ninf else .inf
  | .ninf, .num b => if b = 0 then .nan else if b < 0 then .inf else .ninf
  | .num a, .inf => if a = 0 then .nan else if a < 0 then .ninf else .inf
  | .num a, .ninf => if a = 0 then .nan else if a < 0 then .inf else .ninf
  | .inf, .inf => .inf
  | .inf, .ninf => .ninf
  | .ninf, .inf => .ninf
  | .ninf, .ninf => .inf

/-- JavaScript truthiness of a number: everything but `0` and NaN. -/
def jsTruthy : JsNum → Bool
  | .num q => q ≠ 0
  | .nan => false
  | .inf => true
  | .ninf => true

/-- `Number.isNaN`. -/
def jsIsNaN : JsNum → Bool
  | .nan => true
  | _ => false

/-- `x.toFixed(2)` followed by `Number(...)`: round to two decimal places.
(The pipeline only reaches this on finite values, where ties do not occur
for the quotients produced from integer counters scaled by 100.) -/
def round2 (q : ℚ) : ℚ :=
  (round (q * 100) : ℤ) / 100

/-- The value a metric percentage can take in the plugin: a number, or the
string `'-'` (the "undefined" sentinel), or an infinity (unreachable from
parsed reports, kept for totality of the embedding). -/
inductive Percentage where
  | num (q : ℚ)
  | dash
  | inf
  | ninf
deriving DecidableEq

/-- `Number(p)` for a percentage value: `Number('-')` is NaN. -/
def percNum : Percentage → JsNum
  | .num q => .num q
  | .dash => .nan
  | .inf => .inf
  | .ninf => .ninf

/-- `getCoveredPercentage(covered, total)` from src/plugin.js:

    const percentage = ((covered / total) * 100);
    if (!Number(total)) return 100;
    if (Number.isNaN(percentage)) return '-';
    return Number(percentage.toFixed(2));
-/
def getCoveredPercentage (covered total : JsNum) : Percentage :=
  let percentage := jsMul (jsDiv covered total) (.num 100)
  if ¬ jsTruthy total then .num 100
  else if jsIsNaN percentage then .dash
  else
    match percentage with
    | .num q => .num (round2 q)
    | .nan => .dash
    | .inf => .inf
    | .ninf => .ninf

/-- The attribute object of a `<metrics .../>` element (or of the combined
metrics accumulator): each counter is present (`some`) or absent (`none`,
i.e. `undefined` in JS).  Values are the numbers the strings denote. -/
structure MetricsObj where
  statements : Option ℚ := none
  coveredstatements : Option ℚ := none
  conditionals : Option ℚ := none
  coveredconditionals : Option ℚ := none
  methods : Option ℚ := none
  coveredmethods : Option ℚ := none
deriving DecidableEq

/-- `{}`: the metrics object with every key absent. -/
def emptyMetrics : MetricsObj := {}

/-- Reading a possibly-absent object property as a JS number:
`undefined` coerces to NaN under arithmetic. -/
def optToJs : Option ℚ → JsNum
  | some q => .num q
  | none => .nan

/-- The object returned by `getMetricPercentages`. -/
structure Percentages where
  statements : Percentage
  branches : Percentage
  functions : Percentage
deriving DecidableEq

/-- `getMetricPercentages` from src/plugin.js: destructures the six raw
counters (absent keys read as `undefined`) and derives the three
percentages. -/
def getMetricPercentages (m : MetricsObj) : Percentages where
  statements := getCoveredPercentage (optToJs m.coveredstatements) (optToJs m.statements)
  branches := getCoveredPercentage (optToJs m.coveredconditionals) (optToJs m.conditionals)
  functions := getCoveredPercentage (optToJs m.coveredmethods) (optToJs m.methods)

/-- The `threshold` option: one minimum percentage per metric (defaults 80). -/
structure Threshold where
  statements : ℚ := 80
  branches : ℚ := 80
  functions : ℚ := 80
deriving DecidableEq

/-- `Number(x) >= t` for a percentage value `x` and numeric threshold `t`:
false when `x` is the `'-'` sentinel (NaN comparison). -/
def jsGe (x : Percentage) (t : ℚ) : Bool :=
  match x with
  | .num q => t ≤ q
  | .dash => false
  | .inf => true
  | .ninf => false

/-- One conjunct of `hasPassed`:
`Number(p) >= t || p === '-'`. -/
def metricPassed (t : ℚ) (p : Percentage) : Bool :=
  jsGe p t || p = Percentage.dash

/-- `hasPassed(threshold, { statements, branches, functions })` from
src/plugin.js. -/
def hasPassed (threshold : Threshold) (p : Percentages) : Bool :=
  metricPassed threshold.statements p.statements
  && metricPassed threshold.branches p.branches
  && metricPassed threshold.functions p.functions

/-- A `<line num=".." count=".." type=".."/>` element.  Only the length of
a file's line list is consulted by this version of the plugin. -/
structure LineRec where
  num : ℕ := 1
  count : ℕ := 0
deriving DecidableEq

/-- A `<file path="..">` element after XML parsing: its `path` attribute,
its first `<metrics/>` child's attributes (`none` when the file has no
metrics element, matching `file.metrics?.[0].$ || {}`), and its `<line/>`
children. -/
structure FileRec where
  path : String
  metrics : Option MetricsObj := none
  line : List LineRec := []
deriving DecidableEq

/-- A node of the parsed coverage tree: the optional `project`, `package`
and `file` keys, each holding the list of child elements when present. -/
inductive CovNode where
  | node (project : Option (List CovNode)) (package : Option (List CovNode))
      (file : Option (List FileRec)) : CovNode

mutual

/-- `getFlatFiles(coverage)` from src/plugin.js:
`['project', 'package'].find((key) => key in coverage)` picks the first
grouping key present; its children are recursively flattened and
concatenated; with no grouping key the node's own `file` list (or `[]`)
is returned. -/
def getFlatFiles : CovNode → List FileRec
  | .node (some children) _ _ => flatConcat children
  | .node none (some children) _ => flatConcat children
  | .node none none file => file.getD []

/-- `[].concat(...children.map((item) => getFlatFiles(item)))`. -/
def flatConcat : List CovNode → List FileRec
  | [] => []
  | c :: cs => getFlatFiles c ++ flatConcat cs

end

/-- One assignment `acc[key] = acc[key] || 0 + Number(fileMetrics[key])`
from `getCombinedMetrics`.  JS operator precedence parses the right-hand
side as `acc[key] || (0 + Number(fileMetrics[key]))`: a truthy (nonzero)
accumulated value is kept unchanged, otherwise it is replaced by the
current file's value. -/
def combineVal (accv : Option ℚ) (v : ℚ) : Option ℚ :=
  match accv with
  | some a => if a ≠ 0 then some a else some (0 + v)
  | none => some (0 + v)

/-- `Object.keys(fileMetrics).forEach(...)`: a key absent from the current
file's metrics is not iterated, so it leaves the accumulator untouched. -/
def combineKey (accv fv : Option ℚ) : Option ℚ :=
  match fv with
  | none => accv
  | some v => combineVal accv v

/-- The body of the `reduce` in `getCombinedMetrics`, applied to one file. -/
def combineStep (acc : MetricsObj) (file : FileRec) : MetricsObj :=
  let fm := file.metrics.getD emptyMetrics
  { statements := combineKey acc.statements fm.statements
    coveredstatements := combineKey acc.coveredstatements fm.coveredstatements
    conditionals := combineKey acc.conditionals fm.conditionals
    coveredconditionals := combineKey acc.coveredconditionals fm.coveredconditionals
    methods := combineKey acc.methods fm.methods
    coveredmethods := combineKey acc.coveredmethods fm.coveredmethods }

/-- `getCombinedMetrics(files)` from src/plugin.js: a `reduce` over the
files starting from the empty object. -/
def getCombinedMetrics (files : List FileRec) : MetricsObj :=
  files.foldl combineStep emptyMetrics

/-- The loop body of `getShortPath`'s `parts.forEach`: a part is appended
while the running character count is still strictly below the budget. -/
def shortLoop (maxChars : ℕ) : List String → List String → ℕ → List String × ℕ
  | [], shortParts, currentChars => (shortParts, currentChars)
  | part :: rest, shortParts, currentChars =>
    if currentChars < maxChars then
      shortLoop maxChars rest (shortParts ++ [part]) (currentChars + part.length + 1)
    else
      shortLoop maxChars rest shortParts currentChars

/-- JS `String.prototype.split` with separator `'/'`, on the character
list: the accumulator collects the current segment in reverse. -/
def splitSlashAux : List Char → List Char → List String
  | [], acc => [String.mk acc.reverse]
  | c :: cs, acc =>
    if c = '/' then String.mk acc.reverse :: splitSlashAux cs []
    else splitSlashAux cs (c :: acc)

/-- JS `filePath.split('/')`: the string cut at every `/`, keeping empty
segments (`''.split('/')` is `['']`). -/
def splitSlash (s : String) : List String :=
  splitSlashAux s.data []

/-- The `parts` computed by `getShortPath`:
`filePath.split('/').reverse().filter((x) => x)`. -/
def pathParts (filePath : String) : List String :=
  ((splitSlash filePath).reverse).filter (fun x => x ≠ "")

/-- `getShortPath(filePath)` from src/plugin.js: split on `/`, reverse
(deepest segment first), drop empty segments, keep a single-segment path
unchanged, greedily accumulate segments while under the 50-character
budget, append a `..` marker when the kept segments fall short of
`parts.length - 1`, and rejoin in original order. -/
def getShortPath (filePath : String) : String :=
  let maxChars := 50
  let parts := pathParts filePath
  if parts.length = 1 then filePath
  else
    let looped := shortLoop maxChars parts [] 0
    let shortParts :=
      if looped.1.length < parts.length - 1 then looped.1 ++ [".."] else looped.1
    String.intercalate "/" shortParts.reverse

/-- The ambient `danger` context and working directory used by the plugin:
the changed-file lists, the latest commit SHA when available, and the
`path.relative(process.cwd(), ·)` primitive treated as an external
collaborator. -/
structure Ctx where
  created_files : List String := []
  modified_files : List String := []
  sha : Option String := none
  relToCwd : String → String := id

/-- `getRelevantFiles(coverageXml, showAllFiles)` from src/plugin.js. -/
def getRelevantFiles (ctx : Ctx) (coverageXml : CovNode) (showAllFiles : Bool) : List FileRec :=
  let files := getFlatFiles coverageXml
  let allFiles := ctx.created_files ++ ctx.modified_files
  if showAllFiles then files
  else files.filter (fun file => allFiles.contains file.path)

def newLine : String := "\n"

/-- JS `String(n)` for the numbers this pipeline prints: integers print
without a decimal point; the rounded percentages (denominator dividing
100) print their significant decimals with trailing zeros stripped, as
`Number(x.toFixed(2))` renders. -/
def ratToString (q : ℚ) : String :=
  if q.den = 1 then toString q.num
  else
    let sign := if q < 0 then "-" else ""
    let c : ℤ := round (|q| * 100)
    let ip := c / 100
    let fr := (c % 100).toNat
    if fr % 10 = 0 then sign ++ toString ip ++ "." ++ toString (fr / 10)
    else if fr < 10 then sign ++ toString ip ++ ".0" ++ toString fr
    else sign ++ toString ip ++ "." ++ toString fr

/-- String interpolation of a percentage value. -/
def percToString : Percentage → String
  | .num q => ratToString q
  | .dash => "-"
  | .inf => "Infinity"
  | .ninf => "-Infinity"

/-- `joinRow(items)` from src/plugin.js. -/
def joinRow (items : List String) : String :=
  "|" ++ String.intercalate "|" items ++ "|"

/-- `buildRow(file, threshold)` from src/plugin.js. -/
def buildRow (ctx : Ctx) (file : FileRec) (threshold : Threshold) : String :=
  let fileMetrics := file.metrics.getD emptyMetrics
  let noLines := file.line.length = 0
  let filePath := ctx.relToCwd file.path
  let shortPath := getShortPath filePath
  let fileCell :=
    match ctx.sha with
    | some sha => "[" ++ shortPath ++ "](../blob/" ++ sha ++ "/" ++ filePath ++ ")"
    | none => shortPath
  let percentages := getMetricPercentages fileMetrics
  let emoji :=
    if noLines then "-"
    else if hasPassed threshold percentages then ":white_check_mark:" else ":x:"
  String.intercalate "|"
    ["", fileCell,
      if noLines then "-" else percToString percentages.statements,
      if noLines then "-" else percToString percentages.branches,
      if noLines then "-" else percToString percentages.functions,
      emoji, ""]

/-- `buildTable(files, maxRows, threshold)` from src/plugin.js. -/
def buildTable (ctx : Ctx) (files : List FileRec) (maxRows : ℕ) (threshold : Threshold) : String :=
  let headings := ["Impacted Files", "% Stmts", "% Branch", "% Funcs", ""]
  let headingRow := joinRow headings
  let emptyHeadingRow := joinRow (List.replicate headings.length " ")
  let seperator :=
    joinRow ((List.range headings.length).map (fun index => if index = 0 then "---" else ":-:"))
  let allFileRows := files.map (fun file => buildRow ctx file threshold)
  let mainFileRows := allFileRows.take maxRows
  let extraFileRows := allFileRows.drop maxRows
  let table := String.intercalate newLine ([headingRow, seperator] ++ mainFileRows)
  if extraFileRows.length ≠ 0 then
    table ++ String.intercalate newLine
      ([newLine, "<details>", "<summary>",
        "and " ++ toString extraFileRows.length ++ " more...",
        "</summary>", "", emptyHeadingRow, seperator]
        ++ extraFileRows ++ ["</details>"])
  else table

/-- The three metric names `buildSummary` indexes `percentages` and
`threshold` with. -/
inductive MetricKey where
  | statements
  | branches
  | functions
deriving DecidableEq

/-- `percentages[key]`. -/
def Percentages.key : Percentages → MetricKey → Percentage
  | p, .statements => p.statements
  | p, .branches => p.branches
  | p, .functions => p.functions

/-- `threshold[key]`. -/
def Threshold.key : Threshold → MetricKey → ℚ
  | t, .statements => t.statements
  | t, .branches => t.branches
  | t, .functions => t.functions

def keyName : MetricKey → String
  | .statements => "statements"
  | .branches => "branches"
  | .functions => "functions"

/-- `getThresholdSummaryLine(percentages, key, threshold)` from
src/plugin.js: note `Number(percentages[key]) >= threshold[key]` here has
no `'-'` escape, unlike `hasPassed`. -/
def getThresholdSummaryLine (percentages : Percentages) (key : MetricKey) (threshold : Threshold) : String :=
  let wasMet := jsGe (percentages.key key) (threshold.key key)
  if wasMet then ""
  else
    "Coverage threshold for " ++ keyName key ++ " (" ++ ratToString (threshold.key key)
      ++ "%) not met: " ++ percToString (percentages.key key) ++ "%"

/-- `buildSummary(metrics, successMessage, failureMessage, threshold)`
from src/plugin.js. -/
def buildSummary (metrics : MetricsObj) (successMessage failureMessage : String) (threshold : Threshold) : String :=
  let percentages := getMetricPercentages metrics
  let passed := hasPassed threshold percentages
  let thresholdSummary :=
    ([getThresholdSummaryLine percentages .statements threshold,
      getThresholdSummaryLine percentages .branches threshold,
      getThresholdSummaryLine percentages .functions threshold]).filter (fun x => x ≠ "")
  if passed then "> " ++ successMessage
  else
    String.intercalate newLine
      (("> " ++ failureMessage) ::
        (if thresholdSummary.length ≠ 0 then ["", "```"] ++ thresholdSummary ++ ["```"] else []))

/-- The options object accepted by `coverage`, with its defaults. -/
structure Config where
  successMessage : String := ":+1: Test coverage is looking good."
  failureMessage : String :=
    "Test coverage is looking a little low for the files created or modified in this PR, perhaps we need to improve this."
  maxRows : ℕ := 5
  showAllFiles : Bool := false
  threshold : Threshold := {}

/-- The state of the filesystem at the resolved report path, with the XML
parser treated as a black box: either the file is missing, or it is
present and parsing yields the value under the `coverage` envelope
(`none` when the parsed document has no `coverage` key) or a parse
error. -/
inductive FsState where
  | missing
  | present (parse : Except String (Option CovNode))

/-- `getCoverageXml(cloverPath)` from src/plugin.js: a missing file yields
the explicit `null` signal (`.ok none`) rather than an error; parser
failures propagate. -/
def getCoverageXml (fs : FsState) : Except String (Option CovNode) :=
  match fs with
  | .missing => Except.ok none
  | .present parse => parse

/-- The orchestrator `coverage(options)` from src/plugin.js.  The result
is `.error e` when the XML parser throws, `.ok none` when the function
returns without calling `markdown`, and `.ok (some report)` when it hands
`report` to the `markdown` posting sink. -/
def coverage (ctx : Ctx) (fs : FsState) (cfg : Config) : Except String (Option String) :=
  match getCoverageXml fs with
  | .error e => Except.error e
  | .ok none => Except.ok none
  | .ok (some coverageXml) =>
    let relevantFiles := getRelevantFiles ctx coverageXml cfg.showAllFiles
    let combinedMetrics := getCombinedMetrics relevantFiles
    let table := buildTable ctx relevantFiles cfg.maxRows cfg.threshold
    let summary := buildSummary combinedMetrics cfg.successMessage cfg.failureMessage cfg.threshold
    let report := String.intercalate (newLine ++ newLine) ["## Coverage Report", summary, table]
    Except.ok (some report)

/-- Whether a run of the orchestrator handed a report to the `markdown`
posting sink. -/
def postsMarkdown : Except String (Option String) → Bool
  | .ok (some _) => true
  | _ => false

/-- The specification's aggregate for one raw counter: the sum of that
counter over all records of the collection (an absent key contributes
nothing). -/
def sumCounter (proj : MetricsObj → Option ℚ) (files : List FileRec) : ℚ :=
  (files.map (fun f => (proj (f.metrics.getD emptyMetrics)).getD 0)).sum

/-- A metric-percentage set carrying the specification's fourth (lines)
percentage alongside the three the code computes.  JS destructuring lets
`hasPassed` consume such an object, reading only the three keys it
names. -/
structure PercentagesWithLines where
  statements : Percentage
  branches : Percentage
  functions : Percentage
  lines : Percentage
deriving DecidableEq

/-- A threshold configuration carrying a lines threshold alongside the
three the code's default supplies. -/
structure ThresholdWithLines where
  statements : ℚ := 80
  branches : ℚ := 80
  functions : ℚ := 80
  lines : ℚ := 80
deriving DecidableEq

/-- `hasPassed` applied to an object that also carries a `lines`
percentage: the destructuring pattern
`{ statements, branches, functions }` reads exactly the three named
properties, so the body is unchanged and `lines` is never consulted. -/
def hasPassedWithLines (threshold : ThresholdWithLines) (p : PercentagesWithLines) : Bool :=
  metricPassed threshold.statements p.statements
  && metricPassed threshold.branches p.branches
  && metricPassed threshold.functions p.functions

/-- A percentage value the report pipeline can actually produce: a number
or the undefined sentinel (the infinities exist in the embedding only for
totality of JS arithmetic). -/
def Percentage.reportable : Percentage → Prop
  | .inf => False
  | .ninf => False
  | _ => True

/-- One metric passes, in the words of the claim: its percentage is the
undefined sentinel, or it is a number greater than or equal to the
configured threshold for that metric. -/
def specMetricPasses (p : Percentage) (t : ℚ) : Prop :=
  p = Percentage.dash ∨ ∃ q, p = Percentage.num q ∧ t ≤ q

/-- The claim's reading of the evaluation: all four metrics (statements,
branches, functions, lines) individually pass. -/
def fourMetricsPass (t : ThresholdWithLines) (p : PercentagesWithLines) : Prop :=
  specMetricPasses p.statements t.statements
  ∧ specMetricPasses p.branches t.branches
  ∧ specMetricPasses p.functions t.functions
  ∧ specMetricPasses p.lines t.lines

/-- The number of characters a list of segments contributes inside
`getShortPath`: each segment counts its length plus one for the path
separator. -/
def charSum (l : List String) : ℕ :=
  (l.map (fun a => a.length + 1)).sum

/-- The length of the longest segment of a list. -/
def maxSegLen (l : List String) : ℕ :=
  (l.map String.length).foldr max 0

/-- The segment-inclusion rule of the amended path-shortening claim: a
segment is kept exactly while the running total of the previously kept
segments (each with its separator) is still strictly below the budget, so
the segment that carries the total past the budget is itself kept. -/
def specGreedy (budget : ℕ) : ℕ → List String → List String
  | _, [] => []
  | used, p :: ps =>
    if used < budget then p :: specGreedy budget (used + p.length + 1) ps else []

/-- Fixture: a fully covered file with one statement
(`statements="1" coveredstatements="1"`). -/
def fileA : FileRec :=
  { path := "src/a.js"
    metrics := some { statements := some 1, coveredstatements := some 1 }
    line := [{}] }

/-- Fixture: a half covered file with two statements
(`statements="2" coveredstatements="1"`). -/
def fileB : FileRec :=
  { path := "src/b.js"
    metrics := some { statements := some 2, coveredstatements := some 1 }
    line := [{}] }

/-- Fixture: the metrics object the repository's tests use everywhere
(all six counters 10). -/
def tenMetrics : MetricsObj :=
  { statements := some 10, coveredstatements := some 10
    conditionals := some 10, coveredconditionals := some 10
    methods := some 10, coveredmethods := some 10 }

/-- Fixture: `src/one.js` with the test-suite metrics and one line. -/
def fileOne : FileRec :=
  { path := "src/one.js", metrics := some tenMetrics, line := [{ count := 1 }] }

/-- Fixture: a report whose single project holds only `src/one.js`. -/
def reportOne : CovNode :=
  CovNode.node (some [CovNode.node none none (some [fileOne])]) none none

/-- Fixture: a change set (`package.json`, `yarn.lock`) sharing no path
with `reportOne`. -/
def ctxDisjoint : Ctx :=
  { created_files := ["package.json"], modified_files := ["package.json", "yarn.lock"] }

/-- Fixture: the ten-segment path of the repository's "shortens long
paths" test. -/
def longPath : String :=
  String.intercalate "/" (List.replicate 10 "xxxxxxxxxx")

/-! ## Helper lemmas -/

theorem flatConcat_eq_flatten (cs : List CovNode) :
    flatConcat cs = (cs.map getFlatFiles).flatten := by
  induction cs with
  | nil => simp [flatConcat]
  | cons c cs ih => simp [flatConcat, ih]

theorem metricPassed_mono {t1 t2 : ℚ} (h : t1 ≤ t2) {p : Percentage}
    (hp : metricPassed t2 p = true) : metricPassed t1 p = true := by
  cases p with
  | num q =>
    simp only [metricPassed, jsGe, Bool.or_eq_true, decide_eq_true_eq] at hp ⊢
    rcases hp with hp | hp
    · exact Or.inl (le_trans h hp)
    · exact Or.inr hp
  | dash => simp [metricPassed]
  | inf => simp [metricPassed, jsGe]
  | ninf => simp [metricPassed, jsGe] at hp

theorem metricPassed_iff_spec {p : Percentage} {t : ℚ} (hp : p.reportable) :
    metricPassed t p = true ↔ specMetricPasses p t := by
  cases p with
  | num q =>
    simp [metricPassed, jsGe, specMetricPasses]
  | dash => simp [metricPassed, specMetricPasses]
  | inf => exact absurd hp (by simp [Percentage.reportable])
  | ninf => exact absurd hp (by simp [Percentage.reportable])

/-! ## The claims -/

/-- C1: the claim states that the aggregate metrics handed to the summary
renderer equal the per-key sums of the raw counters over all records.  The
code slips: `acc[key] = acc[key] || 0 + Number(fileMetrics[key])` parses
as `acc[key] || (0 + Number(...))`, so the accumulator keeps the first
truthy (nonzero) value per key instead of summing.  At the failing input
`[fileA, fileB]` (statements 1 and 2, covered 1 and 1) the code's
aggregate statement count is 1 while the per-key sum is 3. -/
theorem getCombinedMetrics_keeps_first_truthy :
    (getCombinedMetrics [fileA, fileB]).statements = some 1
    ∧ sumCounter MetricsObj.statements [fileA, fileB] = 3
    ∧ (getCombinedMetrics [fileA, fileB]).statements
        ≠ some (sumCounter MetricsObj.statements [fileA, fileB]) := by
  have h1 : (getCombinedMetrics [fileA, fileB]).statements = some 1 := by
    norm_num [getCombinedMetrics, combineStep, combineKey, combineVal, emptyMetrics,
      fileA, fileB]
  have h2 : sumCounter MetricsObj.statements [fileA, fileB] = 3 := by
    norm_num [sumCounter, fileA, fileB, emptyMetrics]
  refine ⟨h1, h2, ?_⟩
  rw [h1, h2]
  norm_num

/-- C2: the claim states that when the relevance filter leaves zero file
records the orchestrator returns without invoking the markdown sink.  The
code in src/plugin.js has no such short-circuit: with `reportOne` loaded
and the disjoint change set, `getRelevantFiles` is empty yet the
orchestrator still posts a report. -/
theorem coverage_posts_on_empty_filter :
    getRelevantFiles ctxDisjoint reportOne false = []
    ∧ postsMarkdown (coverage ctxDisjoint (.present (.ok (some reportOne))) {}) = true := by
  exact ⟨by decide, rfl⟩

/-- C3 counterexample: the claim reads the pass/fail evaluation as "all
four metrics (statements, branches, functions, lines) individually pass".
With every threshold at its default 80 and percentages
`(100, 100, 100, 0)`, `hasPassed` returns pass although the lines metric
(percentage 0) fails its threshold, so the claimed equivalence is false. -/
theorem hasPassed_four_metrics_cx :
    ¬ (hasPassedWithLines {} ⟨.num 100, .num 100, .num 100, .num 0⟩ = true
        ↔ fourMetricsPass {} ⟨.num 100, .num 100, .num 100, .num 0⟩) := by
  intro h
  have h1 : hasPassedWithLines {} ⟨.num 100, .num 100, .num 100, .num 0⟩ = true := by decide
  rcases (h.mp h1).2.2.2 with h3 | ⟨q, hq, hle⟩
  · exact absurd h3 (by decide)
  · have hq' : Percentage.num 0 = Percentage.num q := hq
    obtain rfl := (Percentage.num.inj hq').symm
    have hle' : (80 : ℚ) ≤ 0 := hle
    norm_num at hle'

/-- C3 (amended): for every threshold configuration and every
metric-percentage set the pipeline can produce, the pass/fail evaluation
returns pass if and only if each of the three metrics it reads
(statements, branches, functions) individually passes — where a metric
passes exactly when its percentage is the undefined sentinel or at least
the configured threshold — and the lines percentage is never consulted. -/
theorem hasPassed_iff_three_metrics (t : ThresholdWithLines) (p : PercentagesWithLines)
    (hs : p.statements.reportable) (hb : p.branches.reportable)
    (hf : p.functions.reportable) :
    hasPassedWithLines t p = true ↔
      specMetricPasses p.statements t.statements
      ∧ specMetricPasses p.branches t.branches
      ∧ specMetricPasses p.functions t.functions := by
  rw [hasPassedWithLines, Bool.and_eq_true, Bool.and_eq_true,
    metricPassed_iff_spec hs, metricPassed_iff_spec hb, metricPassed_iff_spec hf, and_assoc]

/-- Witness for C3 (amended) at thresholds 80 and percentages
`(90, '-', 100, 0)`: the failing lines percentage does not block the
pass. -/
theorem hasPassed_iff_three_metrics_witness :
    hasPassedWithLines {} ⟨.num 90, .dash, .num 100, .num 0⟩ = true ↔
      specMetricPasses (Percentage.num 90) 80
      ∧ specMetricPasses Percentage.dash 80
      ∧ specMetricPasses (Percentage.num 100) 80 :=
  hasPassed_iff_three_metrics {} ⟨.num 90, .dash, .num 100, .num 0⟩
    trivial trivial trivial

/-- C4: the claim states that aggregation is invariant under permutation
of the file records.  Because `getCombinedMetrics` keeps the first truthy
value per key, swapping `fileA` (statements 1/1) and `fileB`
(statements 2, covered 1) changes the aggregate statements percentage
from 100 to 50. -/
theorem getCombinedMetrics_not_perm_invariant :
    [fileA, fileB].Perm [fileB, fileA]
    ∧ getMetricPercentages (getCombinedMetrics [fileA, fileB])
        ≠ getMetricPercentages (getCombinedMetrics [fileB, fileA]) := by
  refine ⟨List.Perm.swap fileB fileA [], fun h => ?_⟩
  have hAB : (getMetricPercentages (getCombinedMetrics [fileA, fileB])).statements
      = .num 100 := by
    norm_num [getMetricPercentages, getCombinedMetrics, combineStep, combineKey,
      combineVal, emptyMetrics, fileA, fileB, optToJs, getCoveredPercentage,
      jsTruthy, jsDiv, jsMul, jsIsNaN, round2, round_eq]
  have hBA : (getMetricPercentages (getCombinedMetrics [fileB, fileA])).statements
      = .num 50 := by
    norm_num [getMetricPercentages, getCombinedMetrics, combineStep, combineKey,
      combineVal, emptyMetrics, fileA, fileB, optToJs, getCoveredPercentage,
      jsTruthy, jsDiv, jsMul, jsIsNaN, round2, round_eq]
  rw [congrArg Percentages.statements h, hBA] at hAB
  exact absurd (Percentage.num.inj hAB) (by norm_num)

/-- C6: `getCoveredPercentage` returns 100 for a zero total and for a
non-numeric total, and returns the `'-'` sentinel for a non-numeric
covered value over a numeric nonzero total. -/
theorem getCoveredPercentage_edge :
    (∀ covered, getCoveredPercentage covered (.num 0) = .num 100)
    ∧ (∀ covered, getCoveredPercentage covered .nan = .num 100)
    ∧ (∀ q : ℚ, q ≠ 0 → getCoveredPercentage .nan (.num q) = .dash) := by
  refine ⟨fun c => ?_, fun c => ?_, fun q hq => ?_⟩
  · simp [getCoveredPercentage, jsTruthy]
  · simp [getCoveredPercentage, jsTruthy]
  · simp [getCoveredPercentage, jsTruthy, hq, jsDiv, jsMul, jsIsNaN]

/-- Witness for C6 at `percentage(NaN, 10)`. -/
theorem getCoveredPercentage_edge_witness :
    getCoveredPercentage .nan (.num 10) = .dash :=
  getCoveredPercentage_edge.2.2 10 (by norm_num)

/-- C7: flattening a coverage node is total, and equals the concatenation
(in encounter order) of recursively flattening the children under the
`project` key when present, else under the `package` key when present,
else the node's own `file` list (empty when absent). -/
theorem getFlatFiles_spec (n : CovNode) :
    getFlatFiles n =
      match n with
      | .node (some children) _ _ => (children.map getFlatFiles).flatten
      | .node none (some children) _ => (children.map getFlatFiles).flatten
      | .node none none file => file.getD [] := by
  match n with
  | .node (some children) _ _ =>
    simpa [getFlatFiles] using flatConcat_eq_flatten children
  | .node none (some children) _ =>
    simpa [getFlatFiles] using flatConcat_eq_flatten children
  | .node none none file => simp [getFlatFiles]

/-- C8: threshold evaluation is antitone in the thresholds — for fixed
percentages, if the evaluation fails under a configuration it also fails
under any pointwise-greater configuration. -/
theorem hasPassed_monotone (t1 t2 : Threshold) (p : Percentages)
    (hs : t1.statements ≤ t2.statements)
    (hb : t1.branches ≤ t2.branches)
    (hf : t1.functions ≤ t2.functions)
    (hfail : hasPassed t1 p = false) :
    hasPassed t2 p = false := by
  cases hpass : hasPassed t2 p with
  | false => rfl
  | true =>
    exfalso
    rw [hasPassed, Bool.and_eq_true, Bool.and_eq_true] at hpass
    rw [hasPassed, metricPassed_mono hs hpass.1.1, metricPassed_mono hb hpass.1.2,
      metricPassed_mono hf hpass.2] at hfail
    simp at hfail

/-- Witness for C8: raising all thresholds from 80 to 90 keeps the
evaluation failing on percentages `(70, 100, 100)`. -/
theorem hasPassed_monotone_witness :
    hasPassed { statements := 90, branches := 90, functions := 90 }
      ⟨.num 70, .num 100, .num 100⟩ = false :=
  hasPassed_monotone { statements := 80, branches := 80, functions := 80 } _ _
    (by norm_num) (by norm_num) (by norm_num) (by decide)

/-- C9: with the report file missing, the loader returns the explicit
"no report" signal (`.ok none`, not an error), and the orchestrator
returns without handing anything to the markdown sink. -/
theorem coverage_missing_report (ctx : Ctx) (cfg : Config) :
    getCoverageXml .missing = Except.ok none
    ∧ coverage ctx .missing cfg = Except.ok none :=
  ⟨rfl, rfl⟩

/-- C10: when a report was loaded but the filtered record set is empty,
the orchestrator still posts: the aggregate of the empty collection is the
empty metrics object, whose missing covered/total pairs the percentage
function maps to 100 for every metric; with every configured threshold at
most 100 this passes, so the posted report's summary is the success
message. -/
theorem coverage_empty_filter_posts_success (ctx : Ctx) (xml : CovNode) (cfg : Config)
    (hs : cfg.threshold.statements ≤ 100) (hb : cfg.threshold.branches ≤ 100)
    (hf : cfg.threshold.functions ≤ 100)
    (hempty : getRelevantFiles ctx xml cfg.showAllFiles = []) :
    getMetricPercentages (getCombinedMetrics []) = ⟨.num 100, .num 100, .num 100⟩
    ∧ buildSummary (getCombinedMetrics []) cfg.successMessage cfg.failureMessage cfg.threshold
        = "> " ++ cfg.successMessage
    ∧ coverage ctx (.present (.ok (some xml))) cfg
        = Except.ok (some (String.intercalate (newLine ++ newLine)
            ["## Coverage Report", "> " ++ cfg.successMessage,
              buildTable ctx [] cfg.maxRows cfg.threshold])) := by
  have hper : getMetricPercentages (getCombinedMetrics [])
      = ⟨.num 100, .num 100, .num 100⟩ := rfl
  have hpass : hasPassed cfg.threshold (getMetricPercentages (getCombinedMetrics []))
      = true := by
    rw [hper]
    simp [hasPassed, metricPassed, jsGe, hs, hb, hf]
  have hsum : buildSummary (getCombinedMetrics []) cfg.successMessage cfg.failureMessage
      cfg.threshold = "> " ++ cfg.successMessage := by
    simp only [buildSummary, hpass, if_true]
  refine ⟨hper, hsum, ?_⟩
  simp only [coverage, getCoverageXml, hempty, hsum]

/-- Witness for C10 at the default configuration, `reportOne` and the
disjoint change set. -/
theorem coverage_empty_filter_posts_success_witness :
    getMetricPercentages (getCombinedMetrics []) = ⟨.num 100, .num 100, .num 100⟩
    ∧ buildSummary (getCombinedMetrics []) ({} : Config).successMessage
        ({} : Config).failureMessage ({} : Config).threshold
        = "> " ++ ({} : Config).successMessage
    ∧ coverage ctxDisjoint (.present (.ok (some reportOne))) {}
        = Except.ok (some (String.intercalate (newLine ++ newLine)
            ["## Coverage Report", "> " ++ ({} : Config).successMessage,
              buildTable ctxDisjoint [] ({} : Config).maxRows ({} : Config).threshold])) :=
  coverage_empty_filter_posts_success ctxDisjoint reportOne {}
    (by norm_num) (by norm_num) (by norm_num) (by decide)

/-! ## Path-shortening lemmas -/

theorem maxSegLen_cons (p : String) (ps : List String) :
    maxSegLen (p :: ps) = max p.length (maxSegLen ps) := by
  simp [maxSegLen]

theorem charSum_append (l1 l2 : List String) :
    charSum (l1 ++ l2) = charSum l1 + charSum l2 := by
  simp [charSum]

theorem charSum_reverse (l : List String) : charSum l.reverse = charSum l := by
  rw [charSum, charSum, List.map_reverse, List.sum_reverse]

theorem shortLoop_charSum (m : ℕ) (ps acc : List String) (c : ℕ) :
    charSum (shortLoop m ps acc c).1 + c = charSum acc + (shortLoop m ps acc c).2 := by
  induction ps generalizing acc c with
  | nil => simp [shortLoop]
  | cons p ps ih =>
    by_cases hc : c < m
    · simp only [shortLoop, if_pos hc]
      have h := ih (acc ++ [p]) (c + p.length + 1)
      rw [charSum_append] at h
      have h1 : charSum [p] = p.length + 1 := by simp [charSum]
      omega
    · simp only [shortLoop, if_neg hc]
      exact ih acc c

theorem shortLoop_snd_le (m : ℕ) (ps acc : List String) (c : ℕ) :
    (shortLoop m ps acc c).2 ≤ max c (m + maxSegLen ps) := by
  induction ps generalizing acc c with
  | nil => simp [shortLoop]
  | cons p ps ih =>
    by_cases hc : c < m
    · simp only [shortLoop, if_pos hc]
      refine le_trans (ih (acc ++ [p]) (c + p.length + 1)) ?_
      rw [maxSegLen_cons]
      omega
    · simp only [shortLoop, if_neg hc]
      refine le_trans (ih acc c) ?_
      rw [maxSegLen_cons]
      omega

theorem shortLoop_stopped (m : ℕ) (ps acc : List String) (c : ℕ) (h : ¬ c < m) :
    shortLoop m ps acc c = (acc, c) := by
  induction ps with
  | nil => simp [shortLoop]
  | cons p ps ih =>
    simp only [shortLoop, if_neg h]
    exact ih

theorem shortLoop_eq_specGreedy (m : ℕ) (ps acc : List String) (c : ℕ) :
    (shortLoop m ps acc c).1 = acc ++ specGreedy m c ps := by
  induction ps generalizing acc c with
  | nil => simp [shortLoop, specGreedy]
  | cons p ps ih =>
    by_cases hc : c < m
    · simp only [shortLoop, specGreedy, if_pos hc]
      rw [ih]
      simp
    · simp only [shortLoop, specGreedy, if_neg hc]
      rw [shortLoop_stopped m ps acc c hc]
      simp

theorem intercalate_go_length (s : String) (l : List String) (acc : String) :
    (String.intercalate.go acc s l).length
      = acc.length + (l.map (fun a => s.length + a.length)).sum := by
  induction l generalizing acc with
  | nil => simp [String.intercalate.go]
  | cons a as ih =>
    simp only [String.intercalate.go, ih, String.length_append, List.map_cons,
      List.sum_cons]
    omega

theorem sum_map_comm_add (xs : List String) :
    (xs.map (fun a => 1 + a.length)).sum = (xs.map (fun a => a.length + 1)).sum := by
  induction xs with
  | nil => rfl
  | cons a as ih =>
    simp only [List.map_cons, List.sum_cons, ih]
    omega

theorem intercalate_slash_length (x : String) (xs : List String) :
    (String.intercalate "/" (x :: xs)).length + 1 = charSum (x :: xs) := by
  simp only [String.intercalate]
  rw [intercalate_go_length]
  have hs : ("/" : String).length = 1 := rfl
  simp only [hs, charSum, List.map_cons, List.sum_cons, sum_map_comm_add]
  omega

/-- C5 counterexample: the ten-segment path of the repository's own
"shortens long paths" test has at least two segments, yet its shortened
form (`../` followed by five ten-character segments, 57 characters) is
longer than the 50-character budget — the fifth segment, whose inclusion
pushes the running total from 44 past the budget to 55, is included
rather than excluded. -/
theorem getShortPath_budget_cx :
    2 ≤ (pathParts longPath).length ∧ 50 < (getShortPath longPath).length := by
  constructor
  · decide
  · decide

/-- C5 (amended): for a path of at least two segments the kept segments
are exactly those starting while the running total of the previously kept
segments (each with its separator) is strictly below the 50-character
budget — so the segment that carries the total past the budget is itself
kept, and the shortened path can exceed the budget, but only boundedly:
its length is at most 52 plus the length of the longest segment. -/
theorem getShortPath_bounded (filePath : String)
    (h : 2 ≤ (pathParts filePath).length) :
    (shortLoop 50 (pathParts filePath) [] 0).1 = specGreedy 50 0 (pathParts filePath)
    ∧ (getShortPath filePath).length ≤ 52 + maxSegLen (pathParts filePath) := by
  refine ⟨by simpa using shortLoop_eq_specGreedy 50 (pathParts filePath) [] 0, ?_⟩
  have hne : ¬ (pathParts filePath).length = 1 := by omega
  simp only [getShortPath, if_neg hne]
  have hc1 : charSum (shortLoop 50 (pathParts filePath) [] 0).1
      = (shortLoop 50 (pathParts filePath) [] 0).2 := by
    have h0 := shortLoop_charSum 50 (pathParts filePath) [] 0
    have h1 : charSum [] = 0 := rfl
    omega
  have hc2 : (shortLoop 50 (pathParts filePath) [] 0).2
      ≤ 50 + maxSegLen (pathParts filePath) := by
    have h0 := shortLoop_snd_le 50 (pathParts filePath) [] 0
    simpa using h0
  set sp := (if (shortLoop 50 (pathParts filePath) [] 0).1.length
      < (pathParts filePath).length - 1
    then (shortLoop 50 (pathParts filePath) [] 0).1 ++ [".."]
    else (shortLoop 50 (pathParts filePath) [] 0).1) with hsp
  have hcs : charSum sp ≤ charSum (shortLoop 50 (pathParts filePath) [] 0).1 + 3 := by
    rw [hsp]
    split
    · rw [charSum_append]
      have h2 : charSum [".."] = 3 := rfl
      omega
    · omega
  cases hrev : sp.reverse with
  | nil =>
    simp [String.intercalate]
  | cons x xs =>
    have hlen := intercalate_slash_length x xs
    have hsum : charSum (x :: xs) = charSum sp := by
      rw [← hrev, charSum_reverse]
    omega

/-- Witness for C5 (amended) at the ten-segment test path. -/
theorem getShortPath_bounded_witness :
    (shortLoop 50 (pathParts longPath) [] 0).1 = specGreedy 50 0 (pathParts longPath)
    ∧ (getShortPath longPath).length ≤ 52 + maxSegLen (pathParts longPath) :=
  getShortPath_bounded longPath (by decide)

end DangerCoverage
